import Mathlib

/-!
Shallow embedding of `fetcher.go` from placetime/placetime-fetcher.

The program is a two-stage fetch pipeline: a feed-poll stage (HTTP fetch,
parse, map feed items to store items, reorder-safe update of the store) and
an image-backfill stage (pick an image for an item, crop, write a PNG,
update the item in the store), driven by a scheduling loop in `main`.

External collaborators (HTTP, the feed parser, the image picker, the
salience cropper, the filesystem and the Redis-backed datastore) are
modelled as explicit oracle parameters; the control flow, the data
transformations and the exact sequence of store/filesystem calls are
translated from the Go source.  Go `nil` slices are modelled by `Option`
(`none` = nil slice, `some []` = non-nil empty slice); Go `error` values by
`Option String` / `Except String`.
-/

namespace Fetcher

/-- `datastore.Item` (only the fields used by fetcher.go). `Event` is the
Unix timestamp (`item.When.Unix()` is an `int64`). -/
structure Item where
  Id : String
  Pid : String
  Event : Int
  Text : String
  Link : String
  Image : String
deriving DecidableEq, Repr, Inhabited

/-- `datastore.Profile` (only the fields used by fetcher.go). -/
structure Profile where
  Pid : String
  FeedUrl : String
  FollowerCount : Int
deriving DecidableEq, Repr, Inhabited

/-- `datastore.Follower`: only its `Pid` field is read by fetcher.go. -/
structure Follower where
  Pid : String
deriving DecidableEq, Repr, Inhabited

/-- One parsed feed entry, as returned by the external `feedparser`
collaborator: fields `Id`, `Title`, `Link`, `Image` and the `When`
timestamp (already converted to Unix seconds, as `item.When.Unix()`). -/
structure FeedItem where
  Id : String
  Title : String
  Link : String
  Image : String
  WhenUnix : Int
deriving DecidableEq, Repr, Inhabited

/-- A parsed feed (`feedparser.Feed`): the list of its items. -/
structure Feed where
  Items : List FeedItem
deriving DecidableEq, Repr, Inhabited

/-- Raw bytes of an HTTP response body (handed to the parser). -/
abbrev Body := List Nat

/-- An opaque raster image buffer, as produced by the external `imgpick`
and `salience` collaborators. -/
structure Img where
  pix : List Nat
deriving DecidableEq, Repr, Inhabited

/-- `ProfileItemData`, the feed-worker result type.  `Items = none` models
a Go nil slice, `Items = some l` a non-nil slice with elements `l`. -/
structure ProfileItemData where
  Profile : Profile
  Items : Option (List Item)
  Error : Option String
deriving DecidableEq, Repr

/-- `ItemImageData`, the image-worker result type. -/
structure ItemImageData where
  Item : Item
  Error : Option String
deriving DecidableEq, Repr

/-! ## Content Identifier: MD5 of the source item id, in lowercase hex

`itemsFromFeed` computes `md5.New()`, writes the item id string into it and
formats the 16-byte digest with `%x` (32 lowercase hex digits).  The MD5
algorithm is embedded below over `Nat` with explicit `% 2^32` reductions. -/

/-- `2^32`, the word modulus of MD5. -/
def w32 : Nat := 4294967296

/-- Bitwise complement within a 32-bit word. -/
def notW (x : Nat) : Nat := 4294967295 ^^^ (x % w32)

/-- Left-rotation of a 32-bit word by `s` places (`0 ≤ s < 32`). -/
def rotl32 (x s : Nat) : Nat :=
  ((x % w32) * 2 ^ s) % w32 ||| ((x % w32) / 2 ^ (32 - s))

/-- The 64 MD5 round constants `K[i] = floor(|sin(i+1)| * 2^32)`. -/
def md5K : List Nat :=
  [0xd76aa478, 0xe8c7b756, 0x242070db, 0xc1bdceee,
   0xf57c0faf, 0x4787c62a, 0xa8304613, 0xfd469501,
   0x698098d8, 0x8b44f7af, 0xffff5bb1, 0x895cd7be,
   0x6b901122, 0xfd987193, 0xa679438e, 0x49b40821,
   0xf61e2562, 0xc040b340, 0x265e5a51, 0xe9b6c7aa,
   0xd62f105d, 0x02441453, 0xd8a1e681, 0xe7d3fbc8,
   0x21e1cde6, 0xc33707d6, 0xf4d50d87, 0x455a14ed,
   0xa9e3e905, 0xfcefa3f8, 0x676f02d9, 0x8d2a4c8a,
   0xfffa3942, 0x8771f681, 0x6d9d6122, 0xfde5380c,
   0xa4beea44, 0x4bdecfa9, 0xf6bb4b60, 0xbebfbc70,
   0x289b7ec6, 0xeaa127fa, 0xd4ef3085, 0x04881d05,
   0xd9d4d039, 0xe6db99e5, 0x1fa27cf8, 0xc4ac5665,
   0xf4292244, 0x432aff97, 0xab9423a7, 0xfc93a039,
   0x655b59c3, 0x8f0ccc92, 0xffeff47d, 0x85845dd1,
   0x6fa87e4f, 0xfe2ce6e0, 0xa3014314, 0x4e0811a1,
   0xf7537e82, 0xbd3af235, 0x2ad7d2bb, 0xeb86d391]

/-- The 64 MD5 per-round left-rotation amounts. -/
def md5S : List Nat :=
  [7, 12, 17, 22, 7, 12, 17, 22, 7, 12, 17, 22, 7, 12, 17, 22,
   5, 9, 14, 20, 5, 9, 14, 20, 5, 9, 14, 20, 5, 9, 14, 20,
   4, 11, 16, 23, 4, 11, 16, 23, 4, 11, 16, 23, 4, 11, 16, 23,
   6, 10, 15, 21, 6, 10, 15, 21, 6, 10, 15, 21, 6, 10, 15, 21]

/-- The four 32-bit words of the MD5 running state. -/
structure MDState where
  a : Nat
  b : Nat
  c : Nat
  d : Nat
deriving DecidableEq, Repr

/-- Initial MD5 state (RFC 1321). -/
def md5Init : MDState :=
  { a := 0x67452301, b := 0xefcdab89, c := 0x98badcfe, d := 0x10325476 }

/-- One of the 64 MD5 rounds, over the 16-word message schedule `M`. -/
def md5Round (M : List Nat) (st : MDState) (i : Nat) : MDState :=
  let f :=
    if i < 16 then (st.b &&& st.c) ||| (notW st.b &&& st.d)
    else if i < 32 then (st.d &&& st.b) ||| (notW st.d &&& st.c)
    else if i < 48 then st.b ^^^ st.c ^^^ st.d
    else st.c ^^^ (st.b ||| notW st.d)
  let g :=
    if i < 16 then i
    else if i < 32 then (5 * i + 1) % 16
    else if i < 48 then (3 * i + 5) % 16
    else (7 * i) % 16
  let t := (f + st.a + md5K.getD i 0 + M.getD g 0) % w32
  { a := st.d, b := (st.b + rotl32 t (md5S.getD i 0)) % w32, c := st.b, d := st.c }

/-- Process one 512-bit block (given as its 16-word schedule). -/
def md5Block (st : MDState) (M : List Nat) : MDState :=
  let r := (List.range 64).foldl (md5Round M) st
  { a := (st.a + r.a) % w32, b := (st.b + r.b) % w32,
    c := (st.c + r.c) % w32, d := (st.d + r.d) % w32 }

/-- Little-endian 32-bit word from (up to) four bytes. -/
def leWord (bs : List Nat) : Nat :=
  bs.getD 0 0 + bs.getD 1 0 * 256 + bs.getD 2 0 * 65536 + bs.getD 3 0 * 16777216

/-- The 16 little-endian words of a 64-byte block. -/
def blockWords (block : List Nat) : List Nat :=
  (List.range 16).map (fun i => leWord ((block.drop (4 * i)).take 4))

/-- Split a byte list into 64-byte chunks (the padded message length is
always a positive multiple of 64). -/
def chunks64 (l : List Nat) : List (List Nat) :=
  (List.range ((l.length + 63) / 64)).map (fun i => (l.drop (64 * i)).take 64)

/-- MD5 padding: append `0x80`, zero bytes up to 56 mod 64, then the
original bit length as eight little-endian bytes. -/
def md5Pad (msg : List Nat) : List Nat :=
  let k := (119 - msg.length % 64) % 64
  msg ++ [0x80] ++ List.replicate k 0 ++
    (List.range 8).map (fun i => (msg.length * 8 / 256 ^ i) % 256)

/-- Serialize one 32-bit word as four little-endian bytes. -/
def wordLE4 (w : Nat) : List Nat :=
  [w % 256, w / 256 % 256, w / 65536 % 256, w / 16777216 % 256]

/-- The 16-byte MD5 digest of a byte string. -/
def md5Bytes (msg : List Nat) : List Nat :=
  let fin := (chunks64 (md5Pad msg)).foldl (fun st blk => md5Block st (blockWords blk)) md5Init
  wordLE4 fin.a ++ wordLE4 fin.b ++ wordLE4 fin.c ++ wordLE4 fin.d

/-- Lowercase hex digit for `n < 16`. -/
def hexDigit (n : Nat) : Char :=
  if n < 10 then Char.ofNat (48 + n) else Char.ofNat (87 + n)

/-- Two lowercase hex digits of a byte (`%x` on one byte, zero-padded). -/
def byteToHex (b : Nat) : List Char :=
  [hexDigit (b / 16 % 16), hexDigit (b % 16)]

/-- The UTF-8 bytes of a string, as written by Go's `io.WriteString`. -/
def strBytes (s : String) : List Nat :=
  s.toUTF8.data.toList.map (fun b => b.toNat)

/-- The Content Identifier: `fmt.Sprintf("%x", md5(s))`, the 32-character
lowercase hex encoding of the MD5 digest of the string's bytes. -/
def md5hex (s : String) : String :=
  String.mk ((md5Bytes (strBytes s)).flatMap byteToHex)

/-- A character is a lowercase hex digit. -/
def isHexChar (c : Char) : Bool :=
  "0123456789abcdef".toList.contains c

/-! ## The feed-fetch worker -/

/-- `itemsFromFeed(pid, feed)`: for a nil feed, the (non-nil) empty slice;
otherwise one `Item` per feed item with `Id` the Content Identifier of the
source id, `Pid` the job's profile id, `Event` the item timestamp and
`Text`/`Link`/`Image` copied from the parsed item.  The Go loop appends to
`make([]*datastore.Item, 0)`, which is a map over `feed.Items`. -/
def itemsFromFeed (pid : String) (feed : Option Feed) : List Item :=
  match feed with
  | none => []
  | some f =>
    f.Items.map (fun item =>
      { Id := md5hex item.Id, Pid := pid, Event := item.WhenUnix,
        Text := item.Title, Link := item.Link, Image := item.Image })

/-- One iteration of `feedWorker` on a job `p`, with the HTTP client and the
external `feedparser.NewFeed` as oracles.  The parser oracle returns the Go
pair `(*Feed, error)`: `none` models a nil feed pointer.  On an HTTP error
the worker emits `{p, nil, err}` without parsing; otherwise it emits
`{p, itemsFromFeed(p.Pid, feed), err}`. -/
def processFeedJob (httpGet : String → Except String Body)
    (parse : Body → Option Feed × Option String) (p : Profile) : ProfileItemData :=
  match httpGet p.FeedUrl with
  | .error e => { Profile := p, Items := none, Error := some e }
  | .ok body =>
    let r := parse body
    { Profile := p, Items := some (itemsFromFeed p.Pid r.1), Error := r.2 }

/-! ## Store calls issued by the coordinator -/

/-- One call made against the datastore collaborator, in program order.
`followersQuery` is the read `s.Followers(pid, limit, offset)`; the rest
are the mutating calls `s.Unfollow`, `s.AddItem` (with its Go argument
list), `s.Follow` and `s.UpdateItem`. -/
inductive StoreOp where
  | followersQuery (pid : String) (limit : Int) (offset : Int)
  | unfollow (followerPid : String) (pid : String)
  | addItem (pid : String) (event : Int) (text : String) (link : String)
      (image : String) (id : String)
  | follow (followerPid : String) (pid : String)
  | updateItem (item : Item)
deriving DecidableEq, Repr

/-- Whether a store call mutates the store (everything except the
`Followers` read). -/
def StoreOp.isMutation : StoreOp → Bool
  | .followersQuery _ _ _ => false
  | _ => true

/-- `updateProfileItemData(data)`: if `data.Items` is nil, do nothing and
return nil.  Otherwise snapshot the followers with
`s.Followers(p.Pid, p.FollowerCount, 0)`; if that fails, return the error
at once.  Otherwise unfollow every snapshot follower, `AddItem` every item
of the list, re-follow every snapshot follower, and return nil.  The result
is the ordered list of store calls issued, paired with the returned
error. -/
def updateProfileItemData
    (followersOf : String → Int → Int → Except String (List Follower))
    (data : ProfileItemData) : List StoreOp × Option String :=
  match data.Items with
  | none => ([], none)
  | some items =>
    let p := data.Profile
    match followersOf p.Pid p.FollowerCount 0 with
    | .error e => ([StoreOp.followersQuery p.Pid p.FollowerCount 0], some e)
    | .ok followers =>
      (StoreOp.followersQuery p.Pid p.FollowerCount 0
        :: (followers.map (fun f => StoreOp.unfollow f.Pid p.Pid)
            ++ items.map (fun it =>
                 StoreOp.addItem it.Pid it.Event it.Text it.Link it.Image it.Id)
            ++ followers.map (fun f => StoreOp.follow f.Pid p.Pid)),
       none)

/-- The store calls issued by one `pollFeeds` run over a batch of profiles:
the coordinator drains one result per submitted job and calls
`updateProfileItemData` on each.  (Results may be drained in any completion
order; this fixes the submission-order schedule.  Which calls each
profile's result contributes is schedule-independent.) -/
def pollFeedsTrace (profiles : List Profile)
    (httpGet : String → Except String Body)
    (parse : Body → Option Feed × Option String)
    (followersOf : String → Int → Int → Except String (List Follower)) :
    List StoreOp :=
  profiles.flatMap (fun p =>
    (updateProfileItemData followersOf (processFeedJob httpGet parse p)).1)

/-! ## An abstract model of the datastore's state

Used only to express "the store is unchanged" for traces that issue no
mutating call: items keyed by `Id` (upserts overwrite), plus a list of
follow edges. -/

/-- Abstract store state: items keyed by id, and follow edges
`(followerPid, followedPid)`. -/
structure StoreState where
  items : List (String × Item)
  followEdges : List (String × String)
deriving DecidableEq, Repr

/-- Keyed upsert: overwrite the binding for `id` if present, else append. -/
def upsertKeyed (id : String) (it : Item) (l : List (String × Item)) :
    List (String × Item) :=
  if l.any (fun kv => kv.1 = id) then
    l.map (fun kv => if kv.1 = id then (id, it) else kv)
  else l ++ [(id, it)]

/-- Effect of one store call on the abstract store state. -/
def applyOp (st : StoreState) (op : StoreOp) : StoreState :=
  match op with
  | .followersQuery _ _ _ => st
  | .unfollow f p =>
    { st with followEdges := st.followEdges.filter (fun e => e ≠ (f, p)) }
  | .follow f p => { st with followEdges := st.followEdges ++ [(f, p)] }
  | .addItem pid ev tx lk im id =>
    { st with items := upsertKeyed id ⟨id, pid, ev, tx, lk, im⟩ st.items }
  | .updateItem it => { st with items := upsertKeyed it.Id it st.items }

/-- Effect of a trace of store calls, in order. -/
def applyOps (ops : List StoreOp) (st : StoreState) : StoreState :=
  ops.foldl applyOp st

/-! ## The image-fetch worker -/

/-- One filesystem action of the image worker:
`openFileW p` is `os.OpenFile(p, O_CREATE|O_WRONLY, 0666)`,
`pngEncodeTo p img` is `png.Encode(fout, img)` on the file at `p`. -/
inductive FsOp where
  | openFileW (path : String)
  | pngEncodeTo (path : String) (img : Img)
deriving DecidableEq, Repr

/-- Go `path.Join(dir, name)` for an already-clean `dir` with no trailing
slash (the shape used here: a directory path joined with a bare
filename). -/
def pathJoin (dir name : String) : String :=
  if dir = "" then name else dir ++ "/" ++ name

/-- Result of one image-worker iteration: the emitted `ItemImageData` and
the filesystem actions performed. -/
structure ImageWorkerOutcome where
  result : ItemImageData
  fsOps : List FsOp
deriving DecidableEq, Repr

/-- One iteration of `imageWorker` on a job `item`, with the external
collaborators as oracles: `pickImage` is `imgpick.PickImage(item.Link)`
(returning the Go pair `(image, error)`), `crop` is `salience.Crop`,
`openW path` the result of `os.OpenFile` (an error, or `none` = success),
`encodePng path img` the result of `png.Encode` into the file at `path`.
If the picked image is nil or the pick errored, the item is emitted
unchanged with the pick error and nothing touches the filesystem.
Otherwise the image is cropped to 460×160 and written to
`path.Join(imgDir, item.Id + ".png")`; only when both open and encode
succeed is `item.Image` set to the bare filename. -/
def imageWorkerStep (pickImage : String → Option Img × Option String)
    (crop : Img → Nat → Nat → Img)
    (openW : String → Option String)
    (encodePng : String → Img → Option String)
    (imgDir : String) (item : Item) : ImageWorkerOutcome :=
  let pr := pickImage item.Link
  match pr.1 with
  | none => { result := { Item := item, Error := pr.2 }, fsOps := [] }
  | some img =>
    if pr.2.isSome then { result := { Item := item, Error := pr.2 }, fsOps := [] }
    else
      let imgOut := crop img 460 160
      let filename := item.Id ++ ".png"
      let foutName := pathJoin imgDir filename
      match openW foutName with
      | some e =>
        { result := { Item := item, Error := some e },
          fsOps := [FsOp.openFileW foutName] }
      | none =>
        match encodePng foutName imgOut with
        | some e =>
          { result := { Item := item, Error := some e },
            fsOps := [FsOp.openFileW foutName, FsOp.pngEncodeTo foutName imgOut] }
        | none =>
          { result := { Item := { item with Image := filename }, Error := none },
            fsOps := [FsOp.openFileW foutName, FsOp.pngEncodeTo foutName imgOut] }

/-- The store calls issued by one `pollImages` run over the grabbed batch:
the coordinator drains one result per submitted item and calls
`s.UpdateItem(data.Item)` on every result, error or not. -/
def pollImagesTrace (items : List Item)
    (pickImage : String → Option Img × Option String)
    (crop : Img → Nat → Nat → Img)
    (openW : String → Option String)
    (encodePng : String → Img → Option String)
    (imgDir : String) : List StoreOp :=
  items.map (fun it =>
    StoreOp.updateItem
      (imageWorkerStep pickImage crop openW encodePng imgDir it).result.Item)

/-- The filesystem actions of one `pollImages` run (one worker iteration
per grabbed item). -/
def pollImagesFsOps (items : List Item)
    (pickImage : String → Option Img × Option String)
    (crop : Img → Nat → Nat → Img)
    (openW : String → Option String)
    (encodePng : String → Img → Option String)
    (imgDir : String) : List FsOp :=
  items.flatMap (fun it =>
    (imageWorkerStep pickImage crop openW encodePng imgDir it).fsOps)

/-! ## Startup environment check and the scheduling loop -/

/-- Outcome of `checkEnvironment`: the process terminated with an exit
status, or the check passed. -/
inductive EnvOutcome where
  | exited (code : Nat)
  | ok
deriving DecidableEq, Repr

/-- `checkEnvironment()`, with the filesystem as oracles: `openDir` is
`os.Open(imgDir)` and `statDir` is `f.Stat()` (returning `IsDir()` on
success).  An open or stat failure logs and calls `os.Exit(1)`.  In the
not-a-directory branch the Go code calls `err.Error()` on a nil `err`
inside the log call, which panics before reaching `os.Exit(1)`; a Go panic
terminates the process with exit status 2. -/
def checkEnvironment (openDir : Except String Unit)
    (statDir : Except String Bool) : EnvOutcome :=
  match openDir with
  | .error _ => .exited 1
  | .ok _ =>
    match statDir with
    | .error _ => .exited 1
    | .ok isDir => if isDir then .ok else .exited 2

/-- The sleep interval, in minutes, between scheduling-loop ticks.  `main`
builds the ticker with the literal `time.Tick(30 * time.Minute)`; the
parsed `feedInterval` flag value is never read. -/
def tickIntervalMinutes (_feedIntervalFlag : Int) : Int := 30

/-- One observable step of `main`. -/
inductive MainStep where
  | debugFeedRun (url : String)
  | envCheck
  | exit (code : Nat)
  | feedPoll
  | imagePoll
  | tickSleep (minutes : Int)
deriving DecidableEq, Repr

/-- The step sequence of `main`, given the parsed flag values and the
filesystem oracles.  A non-empty `--debugfeed` url bypasses everything
else.  Otherwise `checkEnvironment` runs first; if it terminates the
process nothing further happens.  Then `pollFeeds(); pollImages()` run
once; with `--runonce` the program returns, otherwise it sleeps on the
ticker and repeats (`ticks` bounds the observed prefix of the infinite
loop). -/
def mainTrace (feedurl : String) (runOnce : Bool) (feedIntervalFlag : Int)
    (openDir : Except String Unit) (statDir : Except String Bool)
    (ticks : Nat) : List MainStep :=
  if feedurl ≠ "" then [MainStep.debugFeedRun feedurl]
  else
    match checkEnvironment openDir statDir with
    | .exited c => [MainStep.envCheck, MainStep.exit c]
    | .ok =>
      MainStep.envCheck :: MainStep.feedPoll :: MainStep.imagePoll ::
        (if runOnce then []
         else (List.range ticks).flatMap (fun _ =>
           [MainStep.tickSleep (tickIntervalMinutes feedIntervalFlag),
            MainStep.feedPoll, MainStep.imagePoll]))

/-! ## The debug routine -/

/-- How one `debugFeed` call ends. -/
inductive DebugOutcome where
  | faulted (reason : String)
  | printed (entries : List FeedItem)
deriving DecidableEq, Repr

/-- `debugFeed(url)`: the Go code logs `resp.Status` before checking the
`http.Get` error, so on a transport error (where `resp` is nil) it
dereferences a nil pointer and panics; and it ranges over `feed.Items`
with no nil-feed guard, so a nil parsed feed also panics.  Only a
successful fetch with a non-nil feed prints the entries and returns. -/
def debugFeedRun (httpGet : String → Except String Body)
    (parse : Body → Option Feed × Option String) (url : String) : DebugOutcome :=
  match httpGet url with
  | .error _ => .faulted "nil response dereference"
  | .ok body =>
    match (parse body).1 with
    | none => .faulted "nil feed dereference"
    | some feed => .printed feed.Items

/-! ## Helper lemmas about the Content Identifier -/

theorem byteToHex_length (b : Nat) : (byteToHex b).length = 2 := rfl

theorem flatMap_byteToHex_length (l : List Nat) :
    (l.flatMap byteToHex).length = 2 * l.length := by
  induction l with
  | nil => rfl
  | cons a t ih =>
    rw [List.flatMap_cons, List.length_append, ih, byteToHex_length, List.length_cons]
    omega

theorem md5Bytes_length (msg : List Nat) : (md5Bytes msg).length = 16 := by
  simp [md5Bytes, wordLE4]

theorem md5hex_length (s : String) : (md5hex s).length = 32 := by
  show ((md5Bytes (strBytes s)).flatMap byteToHex).length = 32
  rw [flatMap_byteToHex_length, md5Bytes_length]

theorem isHexChar_hexDigit : ∀ n, n < 16 → isHexChar (hexDigit n) = true := by decide

theorem mem_flatMap_byteToHex {c : Char} {l : List Nat}
    (h : c ∈ l.flatMap byteToHex) : isHexChar c = true := by
  induction l with
  | nil => simp at h
  | cons a t ih =>
    rw [List.flatMap_cons, List.mem_append] at h
    rcases h with h | h
    · simp only [byteToHex, List.mem_cons, List.not_mem_nil, or_false] at h
      rcases h with h | h <;> subst h <;> exact isHexChar_hexDigit _ (by omega)
    · exact ih h

theorem md5hex_chars (s : String) : ∀ c ∈ (md5hex s).data, isHexChar c = true := by
  intro c hc
  exact mem_flatMap_byteToHex hc

set_option maxRecDepth 40000 in
/-- Sanity check of the MD5 embedding against the RFC 1321 test vectors. -/
theorem md5hex_rfc1321_vectors :
    md5hex "" = "d41d8cd98f00b204e9800998ecf8427e"
    ∧ md5hex "abc" = "900150983cd24fb0d6963f7d28e17f72" := by
  exact ⟨by rfl, by rfl⟩

theorem getD_map_of_lt {α β : Type} [Inhabited α] [Inhabited β] (f : α → β) :
    ∀ (l : List α) (i : Nat), i < l.length →
      (l.map f).getD i default = f (l.getD i default) := by
  intro l
  induction l with
  | nil => intro i hi; simp at hi
  | cons a t ih =>
    intro i hi
    cases i with
    | zero => rfl
    | succ j => exact ih j (by simpa using hi)

/-! ## Helper lemmas about store-call traces -/

theorem count_op_map_eq_zero {α : Type} (g : α → StoreOp) (b : StoreOp) (l : List α)
    (h : ∀ x, g x ≠ b) : (l.map g).count b = 0 := by
  rw [List.count_eq_countP, List.countP_map, List.countP_eq_zero]
  intro x _
  simp [Function.comp, h x]

theorem count_unfollow_in_unfollows (p a : String) (fs : List Follower) :
    (fs.map (fun f => StoreOp.unfollow f.Pid p)).count (StoreOp.unfollow a p)
      = (fs.map Follower.Pid).count a := by
  rw [List.count_eq_countP, List.count_eq_countP, List.countP_map, List.countP_map]
  apply List.countP_congr
  intro f _
  by_cases h : f.Pid = a <;> simp [Function.comp, h]

theorem count_follow_in_follows (p a : String) (fs : List Follower) :
    (fs.map (fun f => StoreOp.follow f.Pid p)).count (StoreOp.follow a p)
      = (fs.map Follower.Pid).count a := by
  rw [List.count_eq_countP, List.count_eq_countP, List.countP_map, List.countP_map]
  apply List.countP_congr
  intro f _
  by_cases h : f.Pid = a <;> simp [Function.comp, h]

/-! ## Claims about the Reorder-Safe Update (feed poll orchestrator) -/

/-- C1: when a feed-fetch result carries a non-nil (possibly empty) item
list, `updateProfileItemData` issues, in this order: one follower snapshot
bounded by the profile's recorded follower count, an unfollow of every
snapshot follower, an `AddItem` upsert for every entry in the list (keyed
by its `Id`), and a re-follow of every snapshot follower; every follower
appearing once in the snapshot is unfollowed and re-followed exactly once,
and the sequence runs even for an empty entry list. -/
theorem updateProfileItemData_reorder_sequence
    (followersOf : String → Int → Int → Except String (List Follower))
    (data : ProfileItemData) (items : List Item) (fs : List Follower)
    (hitems : data.Items = some items)
    (hsnap : followersOf data.Profile.Pid data.Profile.FollowerCount 0 = .ok fs) :
    updateProfileItemData followersOf data
      = (StoreOp.followersQuery data.Profile.Pid data.Profile.FollowerCount 0
          :: (fs.map (fun f => StoreOp.unfollow f.Pid data.Profile.Pid)
              ++ items.map (fun it =>
                   StoreOp.addItem it.Pid it.Event it.Text it.Link it.Image it.Id)
              ++ fs.map (fun f => StoreOp.follow f.Pid data.Profile.Pid)),
         none)
    ∧ ∀ f ∈ fs, (fs.map Follower.Pid).count f.Pid = 1 →
        (updateProfileItemData followersOf data).1.count
            (StoreOp.unfollow f.Pid data.Profile.Pid) = 1
        ∧ (updateProfileItemData followersOf data).1.count
            (StoreOp.follow f.Pid data.Profile.Pid) = 1 := by
  have htr : updateProfileItemData followersOf data
      = (StoreOp.followersQuery data.Profile.Pid data.Profile.FollowerCount 0
          :: (fs.map (fun f => StoreOp.unfollow f.Pid data.Profile.Pid)
              ++ items.map (fun it =>
                   StoreOp.addItem it.Pid it.Event it.Text it.Link it.Image it.Id)
              ++ fs.map (fun f => StoreOp.follow f.Pid data.Profile.Pid)),
         none) := by
    simp only [updateProfileItemData, hitems, hsnap]
  refine ⟨htr, ?_⟩
  intro f _hf hone
  rw [htr]
  constructor
  · rw [List.count_cons]
    rw [List.count_append, List.count_append]
    rw [count_unfollow_in_unfollows, hone]
    rw [count_op_map_eq_zero _ _ _ (fun x => by simp)]
    rw [count_op_map_eq_zero _ _ _ (fun x => by simp)]
    simp
  · rw [List.count_cons]
    rw [List.count_append, List.count_append]
    rw [count_follow_in_follows, hone]
    rw [count_op_map_eq_zero _ _ _ (fun x => by simp)]
    rw [count_op_map_eq_zero _ _ _ (fun x => by simp)]
    simp

def c1FollowersOracle : String → Int → Int → Except String (List Follower) :=
  fun _ _ _ => .ok [{ Pid := "f1" }]

def c1Item : Item :=
  { Id := "aa", Pid := "p1", Event := 5, Text := "t", Link := "l", Image := "" }

def c1Data : ProfileItemData :=
  { Profile := { Pid := "p1", FeedUrl := "http://x/feed", FollowerCount := 1 },
    Items := some [c1Item], Error := none }

theorem updateProfileItemData_reorder_sequence_witness :
    updateProfileItemData c1FollowersOracle c1Data
      = (StoreOp.followersQuery "p1" 1 0
          :: [StoreOp.unfollow "f1" "p1",
              StoreOp.addItem "p1" 5 "t" "l" "" "aa",
              StoreOp.follow "f1" "p1"], none)
    ∧ (updateProfileItemData c1FollowersOracle c1Data).1.count
        (StoreOp.unfollow "f1" "p1") = 1
    ∧ (updateProfileItemData c1FollowersOracle c1Data).1.count
        (StoreOp.follow "f1" "p1") = 1 := by
  have h := updateProfileItemData_reorder_sequence c1FollowersOracle c1Data
    [c1Item] [{ Pid := "f1" }] rfl rfl
  have h2 := h.2 { Pid := "f1" } (by simp) (by decide)
  exact ⟨by simpa [c1Item, c1Data] using h.1, h2.1, h2.2⟩

/-- C2: when the follower snapshot fails, the whole update for that
profile aborts: only the (read-only) snapshot query was issued, no entry
is upserted, no unfollow or re-follow call is made, the abstract store
state is unchanged by the issued trace, and the snapshot error is returned
to the caller. -/
theorem updateProfileItemData_snapshot_failure_aborts
    (followersOf : String → Int → Int → Except String (List Follower))
    (data : ProfileItemData) (items : List Item) (e : String)
    (hitems : data.Items = some items)
    (hsnap : followersOf data.Profile.Pid data.Profile.FollowerCount 0 = .error e) :
    updateProfileItemData followersOf data
      = ([StoreOp.followersQuery data.Profile.Pid data.Profile.FollowerCount 0],
         some e)
    ∧ (∀ op ∈ (updateProfileItemData followersOf data).1, op.isMutation = false)
    ∧ (∀ st : StoreState, applyOps (updateProfileItemData followersOf data).1 st = st) := by
  have htr : updateProfileItemData followersOf data
      = ([StoreOp.followersQuery data.Profile.Pid data.Profile.FollowerCount 0],
         some e) := by
    simp only [updateProfileItemData, hitems, hsnap]
  refine ⟨htr, ?_, ?_⟩
  · intro op hop
    rw [htr] at hop
    simp only [List.mem_singleton] at hop
    subst hop
    rfl
  · intro st
    rw [htr]
    rfl

def c2FollowersOracle : String → Int → Int → Except String (List Follower) :=
  fun _ _ _ => .error "redis connection refused"

theorem updateProfileItemData_snapshot_failure_aborts_witness :
    updateProfileItemData c2FollowersOracle c1Data
      = ([StoreOp.followersQuery "p1" 1 0], some "redis connection refused")
    ∧ (∀ op ∈ (updateProfileItemData c2FollowersOracle c1Data).1,
        op.isMutation = false)
    ∧ applyOps (updateProfileItemData c2FollowersOracle c1Data).1
        { items := [], followEdges := [("f1", "p1")] }
        = { items := [], followEdges := [("f1", "p1")] } := by
  have h := updateProfileItemData_snapshot_failure_aborts c2FollowersOracle c1Data
    [c1Item] "redis connection refused" rfl rfl
  exact ⟨by simpa [c1Data] using h.1, h.2.1, h.2.2 _⟩

/-! ## Claims about the feed-fetch worker -/

/-- C3: on an HTTP transport failure the feed worker emits a failure
result carrying the profile and the error with a nil item list and never
consults the parser; `updateProfileItemData` on that result issues no
store call and returns nil, and the coordinator's batch trace is just the
other profiles' traces. -/
theorem feedWorker_transport_failure
    (httpGet : String → Except String Body)
    (parse parse' : Body → Option Feed × Option String)
    (followersOf : String → Int → Int → Except String (List Follower))
    (p : Profile) (e : String)
    (hget : httpGet p.FeedUrl = .error e) :
    processFeedJob httpGet parse p = { Profile := p, Items := none, Error := some e }
    ∧ processFeedJob httpGet parse' p = processFeedJob httpGet parse p
    ∧ updateProfileItemData followersOf (processFeedJob httpGet parse p) = ([], none)
    ∧ ∀ pre post : List Profile,
        pollFeedsTrace (pre ++ p :: post) httpGet parse followersOf
          = pollFeedsTrace pre httpGet parse followersOf
            ++ pollFeedsTrace post httpGet parse followersOf := by
  have h1 : processFeedJob httpGet parse p
      = { Profile := p, Items := none, Error := some e } := by
    simp only [processFeedJob, hget]
  have h1' : processFeedJob httpGet parse' p
      = { Profile := p, Items := none, Error := some e } := by
    simp only [processFeedJob, hget]
  have h3 : updateProfileItemData followersOf (processFeedJob httpGet parse p)
      = ([], none) := by
    rw [h1]; rfl
  have h4 : (updateProfileItemData followersOf (processFeedJob httpGet parse p)).1
      = [] := by
    rw [h3]
  refine ⟨h1, h1'.trans h1.symm, h3, ?_⟩
  intro pre post
  unfold pollFeedsTrace
  rw [List.flatMap_append, List.flatMap_cons, h4, List.nil_append]

def c3HttpGet : String → Except String Body :=
  fun _ => .error "dial tcp: connection refused"

def c3Parse : Body → Option Feed × Option String :=
  fun _ => (some { Items := [] }, none)

def c3Profile : Profile :=
  { Pid := "p2", FeedUrl := "http://down.example/feed", FollowerCount := 0 }

theorem feedWorker_transport_failure_witness :
    processFeedJob c3HttpGet c3Parse c3Profile
      = { Profile := c3Profile, Items := none,
          Error := some "dial tcp: connection refused" }
    ∧ updateProfileItemData c1FollowersOracle
        (processFeedJob c3HttpGet c3Parse c3Profile) = ([], none)
    ∧ pollFeedsTrace [c3Profile] c3HttpGet c3Parse c1FollowersOracle = [] := by
  have h := feedWorker_transport_failure c3HttpGet c3Parse c3Parse c1FollowersOracle
    c3Profile "dial tcp: connection refused" rfl
  have h4 := h.2.2.2 [] []
  exact ⟨h.1, h.2.2.1, by simpa using h4⟩

/-- C4: when the HTTP retrieval succeeds but the parser returns a nil
feed (in particular on a parse failure), the feed worker emits a result
whose item list is the non-nil empty list, with the parse error attached,
rather than a hard failure. -/
theorem feedWorker_parse_failure_empty_items
    (httpGet : String → Except String Body)
    (parse : Body → Option Feed × Option String)
    (p : Profile) (body : Body) (perr : Option String)
    (hget : httpGet p.FeedUrl = .ok body)
    (hparse : parse body = (none, perr)) :
    processFeedJob httpGet parse p = { Profile := p, Items := some [], Error := perr }
    ∧ (processFeedJob httpGet parse p).Items = some []
    ∧ (processFeedJob httpGet parse p).Items ≠ none := by
  have h1 : processFeedJob httpGet parse p
      = { Profile := p, Items := some [], Error := perr } := by
    simp only [processFeedJob, hget, hparse, itemsFromFeed]
  refine ⟨h1, by rw [h1], by rw [h1]; simp⟩

def c4HttpGet : String → Except String Body :=
  fun _ => .ok [60, 47, 62]

def c4Parse : Body → Option Feed × Option String :=
  fun _ => (none, some "expected element type <rss> but have <html>")

theorem feedWorker_parse_failure_empty_items_witness :
    processFeedJob c4HttpGet c4Parse c3Profile
      = { Profile := c3Profile, Items := some [],
          Error := some "expected element type <rss> but have <html>" }
    ∧ (processFeedJob c4HttpGet c4Parse c3Profile).Items ≠ none := by
  have h := feedWorker_parse_failure_empty_items c4HttpGet c4Parse c3Profile
    [60, 47, 62] (some "expected element type <rss> but have <html>") rfl rfl
  exact ⟨h.1, h.2.2⟩

/-- C5: every parsed feed item maps to an `Item` whose `Id` is the Content
Identifier (MD5, 32 lowercase hex digits) of the item's source id, `Pid`
the job's profile id, `Event` the item's timestamp, and `Text`, `Link`,
`Image` copied from the parsed item; the Content Identifier is a total
deterministic function of the source id string, defined for every string
including the empty one. -/
theorem itemsFromFeed_entry_fields (pid : String) (feed : Feed) :
    (itemsFromFeed pid (some feed)).length = feed.Items.length
    ∧ (∀ i, i < feed.Items.length →
        (itemsFromFeed pid (some feed)).getD i default
          = { Id := md5hex (feed.Items.getD i default).Id,
              Pid := pid,
              Event := (feed.Items.getD i default).WhenUnix,
              Text := (feed.Items.getD i default).Title,
              Link := (feed.Items.getD i default).Link,
              Image := (feed.Items.getD i default).Image })
    ∧ (∀ s : String, (md5hex s).length = 32 ∧ ∀ c ∈ (md5hex s).data, isHexChar c = true)
    ∧ (∀ s t : String, s = t → md5hex s = md5hex t) := by
  refine ⟨by simp [itemsFromFeed], ?_,
    fun s => ⟨md5hex_length s, md5hex_chars s⟩, fun s t h => by rw [h]⟩
  intro i hi
  unfold itemsFromFeed
  rw [getD_map_of_lt _ feed.Items i hi]

def c5Feed : Feed :=
  { Items := [{ Id := "tag:blog,2013:post-1", Title := "Hello", Link := "http://blog/1",
                Image := "", WhenUnix := 1361967600 }] }

theorem itemsFromFeed_entry_fields_witness :
    (itemsFromFeed "p5" (some c5Feed)).length = 1
    ∧ (itemsFromFeed "p5" (some c5Feed)).getD 0 default
        = { Id := md5hex "tag:blog,2013:post-1", Pid := "p5", Event := 1361967600,
            Text := "Hello", Link := "http://blog/1", Image := "" }
    ∧ (md5hex "tag:blog,2013:post-1").length = 32 := by
  have h := itemsFromFeed_entry_fields "p5" c5Feed
  refine ⟨h.1.trans (by rfl), ?_, (h.2.2.1 "tag:blog,2013:post-1").1⟩
  have h2 := h.2.1 0 (by decide)
  simpa [c5Feed] using h2

/-! ## Claims about the image backfill -/

/-- Predicate: the store call is an `UpdateItem` of an item with this id. -/
def writesItemId (id : String) : StoreOp → Bool
  | .updateItem j => j.Id == id
  | _ => false

theorem imageWorkerStep_preserves_id
    (pick : String → Option Img × Option String) (crop : Img → Nat → Nat → Img)
    (openW : String → Option String) (enc : String → Img → Option String)
    (imgDir : String) (it : Item) :
    (imageWorkerStep pick crop openW enc imgDir it).result.Item.Id = it.Id := by
  rcases hp : pick it.Link with ⟨img?, perr⟩
  unfold imageWorkerStep
  rw [hp]
  cases img? with
  | none => rfl
  | some img =>
    by_cases h : perr.isSome
    · simp [h]
    · simp only [h, Bool.false_eq_true, if_false]
      cases ho : openW (pathJoin imgDir (it.Id ++ ".png")) with
      | some e => simp [ho]
      | none =>
        cases he : enc (pathJoin imgDir (it.Id ++ ".png")) (crop img 460 160) with
        | some e => simp [ho, he]
        | none => simp [ho, he]

/-- C6: every entry submitted to the image-fetch pool receives exactly one
`UpdateItem` store write afterwards, image or no image; and when image
selection finds no candidate (nil image), the entry is written back
unchanged — same `Image` field, in particular still empty — with no
filesystem action. -/
theorem pollImages_exactly_one_write
    (items : List Item) (pick : String → Option Img × Option String)
    (crop : Img → Nat → Nat → Img) (openW : String → Option String)
    (enc : String → Img → Option String) (imgDir : String) (it : Item)
    (hmem : it ∈ items)
    (huniq : (items.map Item.Id).count it.Id = 1) :
    (pollImagesTrace items pick crop openW enc imgDir).countP (writesItemId it.Id) = 1
    ∧ StoreOp.updateItem (imageWorkerStep pick crop openW enc imgDir it).result.Item
        ∈ pollImagesTrace items pick crop openW enc imgDir
    ∧ (∀ e, pick it.Link = (none, e) →
        imageWorkerStep pick crop openW enc imgDir it
          = { result := { Item := it, Error := e }, fsOps := [] }) := by
  refine ⟨?_, ?_, ?_⟩
  · unfold pollImagesTrace
    rw [List.countP_map]
    have hc : ∀ x ∈ items,
        ((writesItemId it.Id ∘ fun i =>
          StoreOp.updateItem (imageWorkerStep pick crop openW enc imgDir i).result.Item) x
          = true) ↔ ((x.Id == it.Id) = true) := by
      intro x _
      simp [Function.comp, writesItemId, imageWorkerStep_preserves_id]
    rw [List.countP_congr hc]
    rw [List.count_eq_countP, List.countP_map] at huniq
    exact huniq
  · exact List.mem_map_of_mem _ hmem
  · intro e he
    unfold imageWorkerStep
    rw [he]

def c6PickNone : String → Option Img × Option String :=
  fun _ => (none, some "no image found")

def c6Crop : Img → Nat → Nat → Img := fun i _ _ => i

def c6OpenOk : String → Option String := fun _ => none

def c6EncOk : String → Img → Option String := fun _ _ => none

def c6Item : Item :=
  { Id := "bb", Pid := "p1", Event := 9, Text := "u", Link := "http://x/page",
    Image := "" }

theorem pollImages_exactly_one_write_witness :
    (pollImagesTrace [c6Item] c6PickNone c6Crop c6OpenOk c6EncOk "/var/opt/timescroll/img").countP
        (writesItemId "bb") = 1
    ∧ imageWorkerStep c6PickNone c6Crop c6OpenOk c6EncOk "/var/opt/timescroll/img" c6Item
        = { result := { Item := c6Item, Error := some "no image found" }, fsOps := [] } := by
  have h := pollImages_exactly_one_write [c6Item] c6PickNone c6Crop c6OpenOk c6EncOk
    "/var/opt/timescroll/img" c6Item (by simp) (by decide)
  exact ⟨h.1, h.2.2 (some "no image found") rfl⟩

/-- C7: when an image is found, the worker crops it to 460×160, writes it
(PNG-encoded) to `<image-directory>/<Id>.png`, and only when both the open
and the encode succeed sets the entry's `Image` to the bare filename
`<Id>.png` (which differs from the full path whenever the image directory
is non-empty); on an open or encode failure the `Image` field is left
unchanged. -/
theorem imageWorker_found_image
    (pick : String → Option Img × Option String) (crop : Img → Nat → Nat → Img)
    (openW : String → Option String) (enc : String → Img → Option String)
    (imgDir : String) (it : Item) (img : Img)
    (hpick : pick it.Link = (some img, none)) :
    (openW (pathJoin imgDir (it.Id ++ ".png")) = none →
      enc (pathJoin imgDir (it.Id ++ ".png")) (crop img 460 160) = none →
      imageWorkerStep pick crop openW enc imgDir it
        = { result := { Item := { it with Image := it.Id ++ ".png" }, Error := none },
            fsOps := [FsOp.openFileW (pathJoin imgDir (it.Id ++ ".png")),
                      FsOp.pngEncodeTo (pathJoin imgDir (it.Id ++ ".png"))
                        (crop img 460 160)] })
    ∧ (∀ e, openW (pathJoin imgDir (it.Id ++ ".png")) = some e →
        imageWorkerStep pick crop openW enc imgDir it
          = { result := { Item := it, Error := some e },
              fsOps := [FsOp.openFileW (pathJoin imgDir (it.Id ++ ".png"))] })
    ∧ (∀ e, openW (pathJoin imgDir (it.Id ++ ".png")) = none →
        enc (pathJoin imgDir (it.Id ++ ".png")) (crop img 460 160) = some e →
        imageWorkerStep pick crop openW enc imgDir it
          = { result := { Item := it, Error := some e },
              fsOps := [FsOp.openFileW (pathJoin imgDir (it.Id ++ ".png")),
                        FsOp.pngEncodeTo (pathJoin imgDir (it.Id ++ ".png"))
                          (crop img 460 160)] })
    ∧ (imgDir ≠ "" → it.Id ++ ".png" ≠ pathJoin imgDir (it.Id ++ ".png")) := by
  refine ⟨?_, ?_, ?_, ?_⟩
  · intro ho he
    unfold imageWorkerStep
    rw [hpick]
    simp [ho, he]
  · intro e ho
    unfold imageWorkerStep
    rw [hpick]
    simp [ho]
  · intro e ho he
    unfold imageWorkerStep
    rw [hpick]
    simp [ho, he]
  · intro hdir heq
    have hl := congrArg String.length heq
    rw [pathJoin, if_neg hdir] at hl
    simp only [String.length_append] at hl
    have h1 : ("/" : String).length = 1 := rfl
    omega

def c7Pick : String → Option Img × Option String :=
  fun _ => (some { pix := [3, 1, 4] }, none)

theorem imageWorker_found_image_witness :
    imageWorkerStep c7Pick c6Crop c6OpenOk c6EncOk "/var/opt/timescroll/img" c6Item
      = { result := { Item := { c6Item with Image := "bb.png" }, Error := none },
          fsOps := [FsOp.openFileW "/var/opt/timescroll/img/bb.png",
                    FsOp.pngEncodeTo "/var/opt/timescroll/img/bb.png"
                      { pix := [3, 1, 4] }] }
    ∧ "bb.png" ≠ "/var/opt/timescroll/img/bb.png" := by
  have h := imageWorker_found_image c7Pick c6Crop c6OpenOk c6EncOk
    "/var/opt/timescroll/img" c6Item { pix := [3, 1, 4] } rfl
  refine ⟨by simpa [c6Item, pathJoin, c6Crop] using h.1 rfl rfl, ?_⟩
  have h4 := h.2.2.2 (by decide)
  exact h4

/-! ## Claims about the scheduling loop, startup and the debug routine -/

/-- C8: the scheduling loop's inter-tick sleep is the hard-coded literal
`30 * time.Minute`; the parsed `--feedinterval` flag value is never read,
so for flag values other than 30 the inter-tick interval does not equal
the configured value (evaluated here at flag values 5 and 45). -/
theorem feedInterval_flag_ignored :
    tickIntervalMinutes 5 = 30
    ∧ tickIntervalMinutes 5 ≠ 5
    ∧ tickIntervalMinutes 45 = 30
    ∧ tickIntervalMinutes 45 ≠ 45
    ∧ MainStep.tickSleep 30 ∈ mainTrace "" false 5 (.ok ()) (.ok true) 1
    ∧ MainStep.tickSleep 5 ∉ mainTrace "" false 5 (.ok ()) (.ok true) 1 := by
  exact ⟨rfl, by decide, rfl, by decide, by decide, by decide⟩

/-- Non-Prop form of "the process terminated with a non-zero status". -/
def exitsNonzero : EnvOutcome → Prop
  | .exited c => c ≠ 0
  | .ok => False

/-- C9: at startup outside debug mode, an image directory that cannot be
opened, cannot be stat-ed, or is not a directory terminates the process
with a non-zero status (1 for open/stat failures; 2, the Go panic status,
for the not-a-directory branch, whose log call dereferences a nil error)
before any feed poll or image poll runs; if the path is a directory,
startup proceeds into the polling sequence. -/
theorem checkEnvironment_gates_startup
    (openDir : Except String Unit) (statDir : Except String Bool)
    (runOnce : Bool) (fiv : Int) (ticks : Nat) :
    (∀ e, openDir = .error e →
        checkEnvironment openDir statDir = .exited 1
        ∧ mainTrace "" runOnce fiv openDir statDir ticks
            = [MainStep.envCheck, MainStep.exit 1])
    ∧ (∀ e, openDir = .ok () → statDir = .error e →
        checkEnvironment openDir statDir = .exited 1
        ∧ mainTrace "" runOnce fiv openDir statDir ticks
            = [MainStep.envCheck, MainStep.exit 1])
    ∧ (openDir = .ok () → statDir = .ok false →
        checkEnvironment openDir statDir = .exited 2
        ∧ mainTrace "" runOnce fiv openDir statDir ticks
            = [MainStep.envCheck, MainStep.exit 2])
    ∧ (∀ c, checkEnvironment openDir statDir = .exited c →
        exitsNonzero (checkEnvironment openDir statDir)
        ∧ MainStep.feedPoll ∉ mainTrace "" runOnce fiv openDir statDir ticks
        ∧ MainStep.imagePoll ∉ mainTrace "" runOnce fiv openDir statDir ticks)
    ∧ (openDir = .ok () → statDir = .ok true →
        checkEnvironment openDir statDir = .ok
        ∧ (mainTrace "" runOnce fiv openDir statDir ticks).take 3
            = [MainStep.envCheck, MainStep.feedPoll, MainStep.imagePoll]) := by
  refine ⟨?_, ?_, ?_, ?_, ?_⟩
  · intro e he
    subst he
    exact ⟨rfl, by simp [mainTrace, checkEnvironment]⟩
  · intro e ho hs
    subst ho
    subst hs
    exact ⟨rfl, by simp [mainTrace, checkEnvironment]⟩
  · intro ho hs
    subst ho
    subst hs
    exact ⟨rfl, by simp [mainTrace, checkEnvironment]⟩
  · intro c hc
    rcases openDir with e | u
    · refine ⟨?_, ?_, ?_⟩ <;> simp [checkEnvironment, exitsNonzero, mainTrace]
    · rcases statDir with e | b
      · refine ⟨?_, ?_, ?_⟩ <;> simp [checkEnvironment, exitsNonzero, mainTrace]
      · cases b
        · refine ⟨?_, ?_, ?_⟩ <;> simp [checkEnvironment, exitsNonzero, mainTrace]
        · exact absurd hc (by simp [checkEnvironment])
  · intro ho hs
    subst ho
    subst hs
    exact ⟨rfl, by simp [mainTrace, checkEnvironment]⟩

theorem checkEnvironment_gates_startup_witness :
    checkEnvironment (.ok ()) (.ok false) = .exited 2
    ∧ mainTrace "" false 30 (.ok ()) (.ok false) 0
        = [MainStep.envCheck, MainStep.exit 2]
    ∧ exitsNonzero (checkEnvironment (.ok ()) (.ok false))
    ∧ MainStep.feedPoll ∉ mainTrace "" false 30 (.ok ()) (.ok false) 0
    ∧ checkEnvironment (.ok ()) (.ok true) = EnvOutcome.ok := by
  have h := checkEnvironment_gates_startup (.ok ()) (.ok false) false 30 0
  have h3 := h.2.2.1 rfl rfl
  have h4 := h.2.2.2.1 2 h3.1
  have h5 := (checkEnvironment_gates_startup (.ok ()) (.ok true) false 30 0).2.2.2.2 rfl rfl
  exact ⟨h3.1, h3.2, h4.1, h4.2.1, h5.1⟩

def c10OkGet : String → Except String Body := fun _ => .ok [60, 114, 62]

def c10NilFeedParse : Body → Option Feed × Option String :=
  fun _ => (none, some "malformed feed")

/-- C10 (counterexample to safe termination): `debugFeed` logs
`resp.Status` before checking the `http.Get` error, so a transport error
(nil response) faults instead of being logged-and-returned; and it ranges
over `feed.Items` with no nil-feed guard, so a nil parsed feed also
faults. -/
theorem debugFeed_faults_on_error_and_nil_feed :
    debugFeedRun c3HttpGet c3Parse "http://down.example/feed"
      = DebugOutcome.faulted "nil response dereference"
    ∧ debugFeedRun c10OkGet c10NilFeedParse "http://feeds.example.com/a.xml"
      = DebugOutcome.faulted "nil feed dereference" := by
  exact ⟨rfl, rfl⟩

end Fetcher
